import Mathlib

/-!
Shallow embedding of the FocusPop Pomodoro timer (src/app.ts).

The embedding covers the state kept by the `FocusPopApp` class that the
persistence, session, task, history and achievement logic reads or writes.
Presentation-only state (DOM element handles, character-message timeouts,
CSS classes, the `achievementsExpanded` flag) and pure side effects
(audio, browser notifications, rendering) are omitted: no modelled claim
mentions them.  JavaScript numbers that the program only ever uses as
non-negative counters are modelled as `Nat`; `timeLeft` is modelled as
`Int` because imported blobs can carry arbitrary numbers into it.
Wall-clock inputs (`new Date().getHours()`, `toLocaleString()`,
`Date.now()`) are modelled as ambient fields of the state (`hour`, `now`,
`nextId`) that operations read but never change.
-/

namespace FocusPop

/-- Timer modes, `type ModeType = 'work' | 'short-break' | 'long-break'`. -/
inductive Mode where
  | work
  | shortBreak
  | longBreak
  deriving DecidableEq, Repr

/-- Mode configuration entry (`interface TimerMode`).  The `label` and
`color` presentation strings are omitted; only `duration` is read by the
modelled logic. -/
structure TimerMode where
  duration : Int
  deriving DecidableEq, Repr

/-- The mode table (`private readonly modes`): 25, 5 and 15 minutes. -/
def modes : Mode → TimerMode
  | .work => { duration := 25 * 60 }
  | .shortBreak => { duration := 5 * 60 }
  | .longBreak => { duration := 15 * 60 }

/-- `interface Task`. -/
structure Task where
  id : Nat
  text : String
  completed : Bool
  deriving DecidableEq, Repr

/-- `interface PomodoroSet` (one archived history record). -/
structure PomodoroSet where
  id : Nat
  date : String
  name : String
  completedSessions : Nat
  tasks : List Task
  deriving DecidableEq, Repr

/-- The twelve achievement ids of the static rule table, in table order. -/
inductive AchId where
  | firstBlood
  | gettingSerious
  | procrastinationSlayer
  | nightOwl
  | earlyBird
  | taskMaster
  | marathon
  | consistency
  | overachiever
  | multitasker
  | speedDemon
  | zenMaster
  deriving DecidableEq, Repr

/-- The mutable part of an achievement entry (`interface Achievement`).
The constant `name`/`description`/`icon` strings are presentation data and
are omitted; the `condition` closure is modelled separately as
`achCondition`, keyed by id, since the rule table is static. -/
structure Achievement where
  id : AchId
  unlocked : Bool
  unlockedDate : Option String
  deriving DecidableEq, Repr

/-- The application state: the fields of `class FocusPopApp` that the
modelled logic reads or writes, plus the ambient clock inputs. -/
structure State where
  currentMode : Mode
  timeLeft : Int
  isRunning : Bool
  completedSessions : Nat
  tasks : List Task
  history : List PomodoroSet
  achievements : List Achievement
  totalBreaks : Nat
  /-- `document.documentElement.classList.contains('dark')`: the theme flag. -/
  isDark : Bool
  /-- ambient wall clock hour, read by `new Date().getHours()` in predicates -/
  hour : Nat
  /-- ambient wall clock string, read by `new Date().toLocaleString()` -/
  now : String
  /-- ambient `Date.now()` source used for fresh ids -/
  nextId : Nat
  deriving DecidableEq, Repr

/-- The achievement predicates (the `condition` closures of the rule
table, lines 58-171 of src/app.ts).  They read only the session counters,
the history, the break counter and the wall clock - never the achievement
table itself. -/
def achCondition (i : AchId) (s : State) : Bool :=
  match i with
  | .firstBlood => decide (1 ≤ s.completedSessions)
  | .gettingSerious => s.history.any (fun set => decide (8 ≤ set.completedSessions))
  | .procrastinationSlayer => decide (3 ≤ s.history.length)
  | .nightOwl => decide (22 ≤ s.hour) && decide (1 ≤ s.completedSessions)
  | .earlyBird => decide (s.hour < 7) && decide (1 ≤ s.completedSessions)
  | .taskMaster =>
      decide (10 ≤ (s.history.map (fun set => (set.tasks.filter (fun t => t.completed)).length)).sum)
  | .marathon => decide (5 ≤ s.history.length)
  | .consistency =>
      decide (10 ≤ (s.history.map (fun set => set.completedSessions)).sum + s.completedSessions)
  | .overachiever =>
      decide (50 ≤ (s.history.map (fun set => set.completedSessions)).sum + s.completedSessions)
  | .multitasker => s.history.any (fun set => decide (5 ≤ set.tasks.length))
  | .speedDemon => decide (3 ≤ s.completedSessions)
  | .zenMaster => decide (20 ≤ s.totalBreaks)

/-- The initial achievement table: all twelve entries locked, no dates. -/
def initAchievements : List Achievement :=
  [ { id := .firstBlood, unlocked := false, unlockedDate := none },
    { id := .gettingSerious, unlocked := false, unlockedDate := none },
    { id := .procrastinationSlayer, unlocked := false, unlockedDate := none },
    { id := .nightOwl, unlocked := false, unlockedDate := none },
    { id := .earlyBird, unlocked := false, unlockedDate := none },
    { id := .taskMaster, unlocked := false, unlockedDate := none },
    { id := .marathon, unlocked := false, unlockedDate := none },
    { id := .consistency, unlocked := false, unlockedDate := none },
    { id := .overachiever, unlocked := false, unlockedDate := none },
    { id := .multitasker, unlocked := false, unlockedDate := none },
    { id := .speedDemon, unlocked := false, unlockedDate := none },
    { id := .zenMaster, unlocked := false, unlockedDate := none } ]

/-- The field initializers of `class FocusPopApp`: work mode, 25 minutes,
paused, zero counters, empty lists, all achievements locked, light theme.
The wall-clock fields are ambient inputs fixed arbitrarily (noon). -/
def initState : State :=
  { currentMode := .work
    timeLeft := 25 * 60
    isRunning := false
    completedSessions := 0
    tasks := []
    history := []
    achievements := initAchievements
    totalBreaks := 0
    isDark := false
    hour := 12
    now := ""
    nextId := 0 }

/-- `checkAchievements` (lines 187-202): one evaluation pass.  Every
locked entry whose predicate holds is unlocked and date-stamped; the list
of newly unlocked entries is collected in table order and only its head is
handed to `showAchievementNotification` (returned here as the second
component).  The source mutates entries during its `forEach`, but the
predicates never read the achievement table, so evaluating every predicate
against the pre-pass state is equivalent. -/
def checkAchievements (s : State) : State × Option Achievement :=
  let newUnlocks :=
    (s.achievements.filter (fun a => !a.unlocked && achCondition a.id s)).map
      (fun a => { a with unlocked := true, unlockedDate := some s.now })
  let updated :=
    s.achievements.map (fun a =>
      if !a.unlocked && achCondition a.id s then
        { a with unlocked := true, unlockedDate := some s.now }
      else a)
  ({ s with achievements := updated }, newUnlocks.head?)

/-- `switchMode` (lines 606-640): no-op while running, otherwise sets the
mode and resets `timeLeft` to the full duration of the new mode.  The
remainder of the source function is button/display styling. -/
def switchMode (m : Mode) (s : State) : State :=
  if s.isRunning then s
  else { s with currentMode := m, timeLeft := (modes m).duration }

/-- `startTimer` (lines 642-669), state part: sets the running flag and
installs the 1 Hz interval (modelled by `tick` being enabled). -/
def startTimer (s : State) : State :=
  { s with isRunning := true }

/-- `pauseTimer` (lines 671-677), state part: clears the running flag and
the interval. -/
def pauseTimer (s : State) : State :=
  { s with isRunning := false }

/-- `resetTimer` (lines 679-684): pause, then restore the full duration of
the current mode. -/
def resetTimer (s : State) : State :=
  let s1 := pauseTimer s
  { s1 with timeLeft := (modes s1.currentMode).duration }

/-- `completeSession` (lines 687-721) with its deferred `switchMode`
(scheduled at lines 715/717 with a 1-second delay) already applied: pause;
in work mode increment `completedSessions`; run the achievement pass; then
move to the long break after every 4th work session, to the short break
otherwise, and back to work after any break.  This fused form describes
the execution in which nothing intervenes during the 1-second window; the
counter, routing and achievement facts proved about it are insensitive to
that fusion, which touches only `currentMode`/`timeLeft`.  The source
also allows the user to restart the timer during the window, making the
stale deferred switch a no-op: that behaviour is modelled separately by
`completeSessionPending`, `TState` and `tickT`/`fireT` below. -/
def completeSession (s : State) : State :=
  let s1 := pauseTimer s
  if s1.currentMode = Mode.work then
    let s2 := { s1 with completedSessions := s1.completedSessions + 1 }
    let s3 := (checkAchievements s2).1
    let next := if s3.completedSessions % 4 = 0 then Mode.longBreak else Mode.shortBreak
    switchMode next s3
  else
    let s2 := (checkAchievements s1).1
    switchMode Mode.work s2

/-- One tick of the interval installed by `startTimer` (lines 656-668):
decrement `timeLeft`; when it reaches 0 (or below) invoke
`completeSession`.  The interval exists only while the timer runs, which
the guard models. -/
def tick (s : State) : State :=
  if s.isRunning then
    let s1 := { s with timeLeft := s.timeLeft - 1 }
    if s1.timeLeft ≤ 0 then completeSession s1 else s1
  else s

/-- Drop leading whitespace characters. -/
def dropLeadingWs : List Char → List Char
  | [] => []
  | c :: cs => if c.isWhitespace then dropLeadingWs cs else c :: cs

/-- JavaScript `String.prototype.trim`: strip leading and trailing
whitespace.  (Defined by structural recursion so that concrete instances
evaluate; the library trim is extensionally the same but does not reduce.) -/
def jsTrim (t : String) : String :=
  ⟨(dropLeadingWs (dropLeadingWs t.data.reverse).reverse)⟩

/-- `addTask` (lines 795-810): trimmed empty text is rejected, otherwise a
fresh task is appended to the end of the active list. -/
def addTask (text : String) (s : State) : State :=
  let t := jsTrim text
  if t = "" then s
  else
    { s with
      tasks := s.tasks ++ [{ id := s.nextId, text := t, completed := false }]
      nextId := s.nextId + 1 }

/-- Flip the completed flag of the first task with the given id, as the
source's `find`-then-mutate does (lines 813-826); no-op when absent. -/
def toggleTaskIn : List Task → Nat → List Task
  | [], _ => []
  | t :: ts, i =>
    if t.id = i then { t with completed := !t.completed } :: ts
    else t :: toggleTaskIn ts i

/-- `toggleTask` (lines 813-826), state part. -/
def toggleTask (taskId : Nat) (s : State) : State :=
  { s with tasks := toggleTaskIn s.tasks taskId }

/-- `deleteTask` (lines 829-833): keep every task whose id differs. -/
def deleteTask (taskId : Nat) (s : State) : State :=
  { s with tasks := s.tasks.filter (fun t => t.id != taskId) }

/-- `finishCurrentSet` (lines 835-857): archive the current set.  The name
defaults to "Set N" (N = history length + 1) when the trimmed input is
empty; the record captures the current counters and the task list (the
source's `[...this.tasks]` spread; under the value semantics of the
embedding the archived list is an independent copy); the record is
prepended to history; the counters and the active list are cleared. -/
def finishCurrentSet (nameInput : String) (s : State) : State :=
  let setName :=
    if jsTrim nameInput = "" then "Set " ++ toString (s.history.length + 1)
    else jsTrim nameInput
  let setData : PomodoroSet :=
    { id := s.nextId
      name := setName
      date := s.now
      completedSessions := s.completedSessions
      tasks := s.tasks }
  { s with
    history := setData :: s.history
    completedSessions := 0
    tasks := []
    nextId := s.nextId + 1 }

/-- `deleteHistory` (lines 905-909): keep every record whose id differs. -/
def deleteHistory (setId : Nat) (s : State) : State :=
  { s with history := s.history.filter (fun r => r.id != setId) }

/-- `interface AppData`, the persisted snapshot.  `currentMode`,
`timeLeft`, `completedSessions` and `isDark` are mandatory (loadData
dereferences them without a default); `tasks`, `history`, `achievements`
and `totalBreaks` are defended with defaults on load.  A saved achievement
entry carries `id`, `unlocked` and `unlockedDate` (the condition closures
do not survive JSON). -/
structure AppData where
  currentMode : Mode
  timeLeft : Int
  completedSessions : Nat
  tasks : Option (List Task)
  isDark : Bool
  history : Option (List PomodoroSet)
  achievements : Option (List Achievement)
  totalBreaks : Option Nat
  deriving DecidableEq, Repr

/-- One step of the achievement reconciliation loop: the source's
`this.achievements.find(a => a.id === savedAch.id)` followed by mutation
of the found entry, i.e. only the first entry with a matching id receives
the saved `unlocked`/`unlockedDate` values. -/
def updateFirst : List Achievement → Achievement → List Achievement
  | [], _ => []
  | a :: rest, sa =>
    if a.id = sa.id then
      { a with unlocked := sa.unlocked, unlockedDate := sa.unlockedDate } :: rest
    else a :: updateFirst rest sa

/-- The `forEach` reconciliation of saved achievement flags into the
static table (lines 324-333 and 972-980). -/
def restoreAch (table : List Achievement) (saved : List Achievement) : List Achievement :=
  saved.foldl updateFirst table

/-- `saveData` (lines 943-956): serialize the full snapshot; every field
is present in the written blob. -/
def saveData (s : State) : AppData :=
  { currentMode := s.currentMode
    timeLeft := s.timeLeft
    completedSessions := s.completedSessions
    tasks := some s.tasks
    isDark := s.isDark
    history := some s.history
    achievements := some s.achievements
    totalBreaks := some s.totalBreaks }

/-- `loadData` (lines 959-995) applied to a parsed stored blob: restore
the durable fields (with `|| []` / `|| 0` defaults for the optional ones),
reconcile achievement flags by id, restore the theme, then call
`switchMode(this.currentMode)` - which, since the freshly constructed app
is not running, resets `timeLeft` to the full duration of the restored
mode. -/
def loadData (d : AppData) (s : State) : State :=
  let s1 :=
    { s with
      currentMode := d.currentMode
      timeLeft := d.timeLeft
      completedSessions := d.completedSessions
      tasks := d.tasks.getD []
      history := d.history.getD []
      totalBreaks := d.totalBreaks.getD 0
      achievements :=
        match d.achievements with
        | none => s.achievements
        | some saved => restoreAch s.achievements saved
      isDark := d.isDark }
  switchMode d.currentMode s1

/-- The object an import blob may parse to: every field is defended with
`||` / an existence check in `importData`, so all fields are optional.
Fields that are present are assumed well typed (the TypeScript cast). -/
structure ImportedData where
  currentMode : Option Mode := none
  timeLeft : Option Int := none
  completedSessions : Option Nat := none
  tasks : Option (List Task) := none
  isDark : Option Bool := none
  history : Option (List PomodoroSet) := none
  achievements : Option (List Achievement) := none
  totalBreaks : Option Nat := none
  deriving DecidableEq, Repr

/-- The possible outcomes of `JSON.parse` on an import file, as far as
`importData`'s validation can distinguish them: a parse failure, a
primitive top-level value (null, boolean, number, string - all rejected by
the `!importedData || typeof importedData !== 'object'` check), an array
(`typeof` is 'object', so it passes validation and every field access
yields `undefined`), or an object. -/
inductive ImportBlob where
  | malformed
  | jnull
  | jbool (b : Bool)
  | jnum (n : Int)
  | jstr (t : String)
  | jarr
  | jobj (o : ImportedData)
  deriving DecidableEq, Repr

/-- Result of an import attempt: the resulting state and whether the
error alert was shown. -/
structure ImportResult where
  state : State
  errored : Bool
  deriving DecidableEq, Repr

/-- The assignment block of `importData` (lines 310-333 plus the final
`switchMode`): install every field with its `||` default, restore the
theme flag, reconcile achievements only when the field is present, then
call `switchMode(this.currentMode)`.  Note `importedData.timeLeft || 25*60`
treats 0 (and only 0, among integers) as falsy. -/
def applyImport (o : ImportedData) (s : State) : State :=
  let cm := o.currentMode.getD Mode.work
  let s1 :=
    { s with
      currentMode := cm
      timeLeft :=
        match o.timeLeft with
        | some t => if t = 0 then 25 * 60 else t
        | none => 25 * 60
      completedSessions := o.completedSessions.getD 0
      tasks := o.tasks.getD []
      history := o.history.getD []
      totalBreaks := o.totalBreaks.getD 0
      isDark := o.isDark.getD false
      achievements :=
        match o.achievements with
        | none => s.achievements
        | some saved => restoreAch s.achievements saved }
  switchMode cm s1

/-- `importData` (lines 281-373), state part: a parse failure or a
rejected top-level value surfaces the error alert and changes nothing;
otherwise the user is asked to confirm, and on confirmation the blob is
applied (an array behaves like an object with every field absent). -/
def importData (b : ImportBlob) (confirmed : Bool) (s : State) : ImportResult :=
  match b with
  | .malformed => { state := s, errored := true }
  | .jnull => { state := s, errored := true }
  | .jbool _ => { state := s, errored := true }
  | .jnum _ => { state := s, errored := true }
  | .jstr _ => { state := s, errored := true }
  | .jarr =>
    if confirmed then { state := applyImport {} s, errored := false }
    else { state := s, errored := false }
  | .jobj o =>
    if confirmed then { state := applyImport o s, errored := false }
    else { state := s, errored := false }

/-- The import blobs that `importData`'s validation rejects before the
confirmation prompt: parse failures and non-object top-level values. -/
def isRejectedTopLevel : ImportBlob → Bool
  | .malformed => true
  | .jnull => true
  | .jbool _ => true
  | .jnum _ => true
  | .jstr _ => true
  | .jarr => false
  | .jobj _ => false

/-- The public operations other than load and import. -/
inductive Op where
  | start
  | tick
  | pause
  | reset
  | switchMode (m : Mode)
  | completeSession
  | finishSet (name : String)
  | addTask (text : String)
  | toggleTask (id : Nat)
  | deleteTask (id : Nat)
  | deleteHistory (id : Nat)

/-- Interpretation of one operation. -/
def applyOp (op : Op) (s : State) : State :=
  match op with
  | .start => startTimer s
  | .tick => tick s
  | .pause => pauseTimer s
  | .reset => resetTimer s
  | .switchMode m => switchMode m s
  | .completeSession => completeSession s
  | .finishSet n => finishCurrentSet n s
  | .addTask t => addTask t s
  | .toggleTask i => toggleTask i s
  | .deleteTask i => deleteTask i s
  | .deleteHistory i => deleteHistory i s

/-- Interpretation of a sequence of operations, oldest first. -/
def applyOps (ops : List Op) (s : State) : State :=
  ops.foldl (fun s op => applyOp op s) s

/-- The achievement with the given id is currently unlocked. -/
def AchUnlocked (s : State) (i : AchId) : Prop :=
  ∃ a ∈ s.achievements, a.id = i ∧ a.unlocked = true

instance (s : State) (i : AchId) : Decidable (AchUnlocked s i) := by
  unfold AchUnlocked
  infer_instance

/-- `completeSession` (lines 687-721) without the deferred part: pause;
in work mode increment `completedSessions`; run the achievement pass;
and return, alongside the state, the mode argument of the `switchMode`
call that lines 715/717 schedule with a 1-second `setTimeout` rather
than perform: the long break after every 4th work session, the short
break otherwise, and work after any break. -/
def completeSessionPending (s : State) : State × Mode :=
  let s1 := pauseTimer s
  if s1.currentMode = Mode.work then
    let s2 := { s1 with completedSessions := s1.completedSessions + 1 }
    let s3 := (checkAchievements s2).1
    let next := if s3.completedSessions % 4 = 0 then Mode.longBreak else Mode.shortBreak
    (s3, next)
  else
    ((checkAchievements s1).1, Mode.work)

/-- The application state together with the pending deferred mode switch,
when one is scheduled.  In the source at most one deferred switch is ever
live: it fires one second after the completion that scheduled it, before
the earliest tick a restarted interval can deliver produces another
completion, so a single optional slot (overwritten on completion)
suffices. -/
structure TState where
  st : State
  pending : Option Mode
  deriving DecidableEq, Repr

/-- The initial timed state: fresh app, no deferred switch scheduled. -/
def initTState : TState :=
  { st := initState, pending := none }

/-- One interval tick in the timed model: decrement `timeLeft`; on
reaching 0 (or below) run `completeSessionPending` and record the
scheduled deferred switch.  In the source, `completeSession` is invoked
only from this interval callback (line 666). -/
def tickT (ts : TState) : TState :=
  if ts.st.isRunning then
    let s1 := { ts.st with timeLeft := ts.st.timeLeft - 1 }
    if s1.timeLeft ≤ 0 then
      let p := completeSessionPending s1
      { st := p.1, pending := some p.2 }
    else { ts with st := s1 }
  else ts

/-- The 1-second `setTimeout` callback firing: perform the scheduled
`switchMode`.  If the user restarted the timer during the delay window,
the guard at line 607 makes the stale switch a no-op - but the pending
slot is consumed either way. -/
def fireT (ts : TState) : TState :=
  match ts.pending with
  | none => ts
  | some m => { st := switchMode m ts.st, pending := none }

/-- The remaining user operations lifted to timed states; none of them
cancels a pending deferred switch (the source never clears the
timeout). -/
def startT (ts : TState) : TState := { ts with st := startTimer ts.st }

def pauseT (ts : TState) : TState := { ts with st := pauseTimer ts.st }

def resetT (ts : TState) : TState := { ts with st := resetTimer ts.st }

def switchModeT (m : Mode) (ts : TState) : TState := { ts with st := switchMode m ts.st }

def finishSetT (n : String) (ts : TState) : TState := { ts with st := finishCurrentSet n ts.st }

def addTaskT (t : String) (ts : TState) : TState := { ts with st := addTask t ts.st }

def toggleTaskT (i : Nat) (ts : TState) : TState := { ts with st := toggleTask i ts.st }

def deleteTaskT (i : Nat) (ts : TState) : TState := { ts with st := deleteTask i ts.st }

def deleteHistoryT (i : Nat) (ts : TState) : TState := { ts with st := deleteHistory i ts.st }

def loadT (d : AppData) (ts : TState) : TState := { ts with st := loadData d ts.st }

def importT (b : ImportBlob) (c : Bool) (ts : TState) : TState :=
  { ts with st := (importData b c ts.st).state }

/-- The public operations of the timed model, the deferred-switch firing
included. -/
inductive OpT where
  | start
  | tick
  | fire
  | pause
  | reset
  | switchMode (m : Mode)
  | finishSet (name : String)
  | addTask (text : String)
  | toggleTask (id : Nat)
  | deleteTask (id : Nat)
  | deleteHistory (id : Nat)

/-- Interpretation of one timed operation. -/
def applyOpT (op : OpT) (ts : TState) : TState :=
  match op with
  | .start => startT ts
  | .tick => tickT ts
  | .fire => fireT ts
  | .pause => pauseT ts
  | .reset => resetT ts
  | .switchMode m => switchModeT m ts
  | .finishSet n => finishSetT n ts
  | .addTask t => addTaskT t ts
  | .toggleTask i => toggleTaskT i ts
  | .deleteTask i => deleteTaskT i ts
  | .deleteHistory i => deleteHistoryT i ts

/-- Timed states reachable by the public operations, including loading a
stored blob (which only ever happens in the constructor, while the timer
is not running) and importing an arbitrary file at any time - the source
attaches `importData` to a file-input event that can fire even while the
timer runs. -/
inductive ReachableT : TState → Prop where
  | init : ReachableT initTState
  | step (op : OpT) {ts : TState} : ReachableT ts → ReachableT (applyOpT op ts)
  | load (d : AppData) {ts : TState} :
      ReachableT ts → ts.st.isRunning = false → ReachableT (loadT d ts)
  | importStep (b : ImportBlob) (c : Bool) {ts : TState} :
      ReachableT ts → ReachableT (importT b c ts)

/-- Like `ReachableT`, but imports happen only while the timer is
paused. -/
inductive ReachableTSafe : TState → Prop where
  | init : ReachableTSafe initTState
  | step (op : OpT) {ts : TState} : ReachableTSafe ts → ReachableTSafe (applyOpT op ts)
  | load (d : AppData) {ts : TState} :
      ReachableTSafe ts → ts.st.isRunning = false → ReachableTSafe (loadT d ts)
  | importStep (b : ImportBlob) (c : Bool) {ts : TState} :
      ReachableTSafe ts → ts.st.isRunning = false → ReachableTSafe (importT b c ts)

/-- The deferred-switch race: run a short break to completion (300 ticks,
the 300th of which completes the session and schedules the deferred
switch back to work), press start during the 1-second delay window, let
the stale deferred switch fire as a no-op against the running timer, and
let the next tick fire.  `timeLeft` reaches -1. -/
def raceTrace : TState :=
  applyOpT OpT.tick (applyOpT OpT.fire (applyOpT OpT.start
    (tickT^[300] (applyOpT OpT.start (applyOpT (OpT.switchMode Mode.shortBreak) initTState)))))

/-- Importing a blob carrying `timeLeft` 2000 while the timer runs: the
final `switchMode` of the import path is a no-op against the running
timer, so the unchecked value lands in work mode (duration 1500). -/
def overflowImport : TState :=
  importT (ImportBlob.jobj { currentMode := some Mode.work, timeLeft := some 2000 }) true
    (applyOpT OpT.start initTState)

/-! ### Helper lemmas -/

/-- Every mode duration is non-negative. -/
lemma modes_duration_nonneg (m : Mode) : 0 ≤ (modes m).duration := by
  cases m <;> decide

/-- `switchMode` never touches the achievement table. -/
lemma switchMode_achievements (m : Mode) (s : State) :
    (switchMode m s).achievements = s.achievements := by
  unfold switchMode
  split <;> rfl

/-- `switchMode` never touches the session counter. -/
lemma switchMode_completedSessions (m : Mode) (s : State) :
    (switchMode m s).completedSessions = s.completedSessions := by
  unfold switchMode
  split <;> rfl

/-- `switchMode` never touches the break counter. -/
lemma switchMode_totalBreaks (m : Mode) (s : State) :
    (switchMode m s).totalBreaks = s.totalBreaks := by
  unfold switchMode
  split <;> rfl

/-- Applied to a paused state, `switchMode` installs the mode and its
full duration. -/
lemma switchMode_not_running (m : Mode) (s : State) (h : s.isRunning = false) :
    switchMode m s = { s with currentMode := m, timeLeft := (modes m).duration } := by
  unfold switchMode
  rw [h]
  rfl

/-! ### C2: break completion and the cumulative break counter -/

/-- Claim C2.  The claim states that completing a session in a break mode
increments `totalBreaks` by exactly 1.  This theorem shows the code never
changes `totalBreaks` in `completeSession` at all (in any mode), so the
claim fails on the code; together with the Zen Master achievement, whose
condition counts completed breaks through `totalBreaks`, this marks the
missing increment as a code bug. -/
theorem c2_totalBreaks_unchanged (s : State) :
    (completeSession s).totalBreaks = s.totalBreaks := by
  unfold completeSession checkAchievements pauseTimer
  by_cases h : s.currentMode = Mode.work <;> simp [h, switchMode_totalBreaks]

/-! ### C3: session-completion routing -/

/-- Claim C3.  `completeSession` in work mode increments
`completedSessions` by exactly 1 and schedules the long break exactly when
the incremented count is divisible by 4, otherwise the short break; in
either break mode it leaves the count alone and schedules work. -/
theorem c3_completeSession_routing (s : State) :
    (completeSession s).completedSessions =
      (if s.currentMode = Mode.work then s.completedSessions + 1 else s.completedSessions)
    ∧ (completeSession s).currentMode =
      (if s.currentMode = Mode.work then
        (if (s.completedSessions + 1) % 4 = 0 then Mode.longBreak else Mode.shortBreak)
      else Mode.work) := by
  unfold completeSession checkAchievements pauseTimer
  by_cases h : s.currentMode = Mode.work <;>
    simp [h, switchMode_completedSessions, switchMode, switchMode_not_running]

/-! ### C8: switchMode is a no-op while running -/

/-- Claim C8.  For every mode, calling `switchMode` while the timer is
running changes nothing: the guard returns before any state is touched. -/
theorem c8_switchMode_noop_while_running (m : Mode) (s : State)
    (h : s.isRunning = true) : switchMode m s = s := by
  unfold switchMode
  rw [h]
  rfl

/-- Witness for C8 at a concrete running state. -/
theorem c8_switchMode_noop_witness :
    (startTimer initState).isRunning = true
    ∧ switchMode Mode.shortBreak (startTimer initState) = startTimer initState :=
  ⟨rfl, c8_switchMode_noop_while_running Mode.shortBreak (startTimer initState) rfl⟩

/-! ### C4: archiving the current set -/

/-- Claim C4.  `finishCurrentSet` prepends to history a record whose task
list is value-equal to the pre-archive active list, whose name defaults to
"Set N" with N the pre-archive history length plus 1, and which carries
the pre-archive session count; afterwards `completedSessions` is 0 and the
active task list is empty; and the archived copy is independent: task
operations performed afterwards on the active list leave history (and so
the archived record) untouched. -/
theorem c4_finishCurrentSet_archives (name : String) (s : State) :
    ((finishCurrentSet name s).history.head?.map PomodoroSet.tasks) = some s.tasks
    ∧ ((finishCurrentSet name s).history.head?.map PomodoroSet.completedSessions)
        = some s.completedSessions
    ∧ (jsTrim name = "" →
        ((finishCurrentSet name s).history.head?.map PomodoroSet.name)
          = some ("Set " ++ toString (s.history.length + 1)))
    ∧ (finishCurrentSet name s).history.tail = s.history
    ∧ (finishCurrentSet name s).completedSessions = 0
    ∧ (finishCurrentSet name s).tasks = []
    ∧ (∀ t, (addTask t (finishCurrentSet name s)).history = (finishCurrentSet name s).history)
    ∧ (∀ i, (toggleTask i (finishCurrentSet name s)).history = (finishCurrentSet name s).history)
    ∧ (∀ i, (deleteTask i (finishCurrentSet name s)).history = (finishCurrentSet name s).history) := by
  refine ⟨rfl, rfl, ?_, rfl, rfl, rfl, ?_, fun i => rfl, fun i => rfl⟩
  · intro h
    simp [finishCurrentSet, h]
  · intro t
    by_cases h : jsTrim t = "" <;> simp [addTask, h]

/-- Witness for C4: archiving with an empty name from the initial state
produces the default name "Set 1". -/
theorem c4_finishCurrentSet_witness :
    jsTrim "" = ""
    ∧ ((finishCurrentSet "" initState).history.head?.map PomodoroSet.name)
        = some ("Set " ++ toString (initState.history.length + 1)) :=
  ⟨by decide, (c4_finishCurrentSet_archives "" initState).2.2.1 (by decide)⟩

/-! ### C9: one achievement pass, one notification -/

/-- The head of a filtered list is the first element satisfying the
predicate. -/
lemma head?_filter_eq_find? {α : Type} (p : α → Bool) (l : List α) :
    (l.filter p).head? = l.find? p := by
  induction l with
  | nil => rfl
  | cons a t ih =>
    by_cases h : p a
    · simp [List.filter_cons, h, List.find?_cons_of_pos]
    · simp only [List.filter_cons, h, Bool.false_eq_true, if_false]
      rw [List.find?_cons_of_neg _ h]
      exact ih

/-- Claim C9.  In one `checkAchievements` pass the table keeps its length,
ids and order; entry by entry, the result is unlocked exactly when it was
already unlocked or its predicate holds (so every previously locked
achievement whose predicate holds unlocks in this pass); and the
notification handed to the presentation layer is at most one achievement,
namely the first previously-locked entry in table order whose predicate
holds - all later newly-unlocked entries stay silent. -/
theorem c9_one_notification_per_pass (s : State) :
    List.Forall₂
      (fun a a2 => a2.id = a.id ∧ a2.unlocked = (a.unlocked || achCondition a.id s))
      s.achievements (checkAchievements s).1.achievements
    ∧ (checkAchievements s).2 =
        (s.achievements.find? (fun a => !a.unlocked && achCondition a.id s)).map
          (fun a => { a with unlocked := true, unlockedDate := some s.now }) := by
  constructor
  · show List.Forall₂ _ s.achievements
      (s.achievements.map (fun a =>
        if !a.unlocked && achCondition a.id s then
          { a with unlocked := true, unlockedDate := some s.now }
        else a))
    rw [List.forall₂_map_right_iff, List.forall₂_same]
    intro a _
    by_cases hu : a.unlocked <;> by_cases hc : achCondition a.id s <;> simp [hu, hc]
  · show ((s.achievements.filter _).map _).head? = _
    rw [List.head?_map, head?_filter_eq_find?]

/-! ### C6: import error handling -/

/-- Counterexample to claim C6 as stated.  A JSON array is structurally
invalid for the snapshot schema, yet `importData` accepts it: `typeof` of
an array is 'object', so validation passes, every field access yields
`undefined`, and the state is replaced by the field defaults.  From a
state with one completed session, importing an array blob surfaces no
error and changes the state - the claimed abort-unchanged behaviour does
not happen. -/
theorem c6_counterexample_array_blob :
    isRejectedTopLevel ImportBlob.jarr = false
    ∧ (importData ImportBlob.jarr true (completeSession initState)).errored = false
    ∧ (importData ImportBlob.jarr true (completeSession initState)).state.completedSessions = 0
    ∧ (completeSession initState).completedSessions = 1 := by
  refine ⟨rfl, rfl, rfl, ?_⟩
  decide

/-- Claim C6, amended.  For every import blob that fails JSON parsing or
whose parsed top-level value is not a JavaScript object (null, boolean,
number or string), `importData` surfaces the error alert once and leaves
the entire state unchanged, before the confirmation prompt is ever shown.
A blob parsing to an array or object passes the top-level validation and
is applied, so the abort-unchanged guarantee does not cover every
structurally invalid blob. -/
theorem c6_amended_reject_unchanged (b : ImportBlob) (confirmed : Bool) (s : State)
    (h : isRejectedTopLevel b = true) :
    (importData b confirmed s).state = s ∧ (importData b confirmed s).errored = true := by
  cases b <;> simp_all [importData, isRejectedTopLevel]

/-- Witness for the amended C6 at a concrete rejected blob. -/
theorem c6_amended_witness :
    isRejectedTopLevel ImportBlob.jnull = true
    ∧ (importData ImportBlob.jnull true initState).state = initState
    ∧ (importData ImportBlob.jnull true initState).errored = true :=
  ⟨rfl, (c6_amended_reject_unchanged ImportBlob.jnull true initState rfl).1,
    (c6_amended_reject_unchanged ImportBlob.jnull true initState rfl).2⟩

/-! ### C7: snapshots without an achievements field -/

/-- Counterexample to claim C7 as stated.  Importing a snapshot that lacks
the `achievements` field does succeed, but the code leaves the current
achievement table as it is instead of resetting it to the default
all-locked table: after unlocking First Blood by completing a session,
importing an empty object keeps First Blood unlocked. -/
theorem c7_counterexample_table_kept :
    ({} : ImportedData).achievements = none
    ∧ (importData (ImportBlob.jobj {}) true (completeSession initState)).errored = false
    ∧ ((importData (ImportBlob.jobj {}) true
          (completeSession initState)).state.achievements.all
        (fun a => !a.unlocked)) = false
    ∧ (importData (ImportBlob.jobj {}) true (completeSession initState)).state.achievements
        ≠ initAchievements := by
  refine ⟨rfl, rfl, ?_, ?_⟩ <;> decide

/-- Claim C7, amended.  Loading or importing a snapshot that lacks the
`achievements` field succeeds without error and leaves the achievement
table unchanged; since loading happens only in the constructor, where the
table is the default all-locked table, a load of such a snapshot ends with
the default all-locked table, but an import keeps whatever table the
running application already had. -/
theorem c7_amended_missing_achievements
    (d : AppData) (o : ImportedData) (s : State)
    (hd : d.achievements = none) (ho : o.achievements = none) :
    (loadData d initState).achievements = initAchievements
    ∧ (initAchievements.all (fun a => !a.unlocked && a.unlockedDate.isNone)) = true
    ∧ (importData (ImportBlob.jobj o) true s).state.achievements = s.achievements
    ∧ (importData (ImportBlob.jobj o) true s).errored = false := by
  refine ⟨?_, by decide, ?_, rfl⟩
  · simp [loadData, hd, switchMode_achievements, initState]
  · simp [importData, applyImport, ho, switchMode_achievements]

/-- Witness for the amended C7 at concrete blobs with no achievements
field. -/
theorem c7_amended_witness :
    (saveData initState).achievements = some initAchievements
    ∧ ({ currentMode := Mode.work, timeLeft := 60, completedSessions := 2,
          tasks := none, isDark := false, history := none, achievements := none,
          totalBreaks := none } : AppData).achievements = none
    ∧ ({} : ImportedData).achievements = none
    ∧ (loadData
          { currentMode := Mode.work, timeLeft := 60, completedSessions := 2,
            tasks := none, isDark := false, history := none, achievements := none,
            totalBreaks := none } initState).achievements = initAchievements
    ∧ (importData (ImportBlob.jobj {}) true initState).state.achievements
        = initState.achievements
    ∧ (importData (ImportBlob.jobj {}) true initState).errored = false := by
  have h := c7_amended_missing_achievements
    { currentMode := Mode.work, timeLeft := 60, completedSessions := 2,
      tasks := none, isDark := false, history := none, achievements := none,
      totalBreaks := none } {} initState rfl rfl
  exact ⟨rfl, rfl, rfl, h.1, h.2.2.1, h.2.2.2⟩

/-! ### C5: achievement monotonicity -/

/-- The achievement pass never re-locks an unlocked achievement. -/
lemma checkAchievements_mono {s : State} {i : AchId} (h : AchUnlocked s i) :
    AchUnlocked (checkAchievements s).1 i := by
  obtain ⟨a, ha, hid, hu⟩ := h
  refine ⟨a, ?_, hid, hu⟩
  show a ∈ s.achievements.map _
  have : (fun a : Achievement =>
      if !a.unlocked && achCondition a.id s then
        { a with unlocked := true, unlockedDate := some s.now }
      else a) a = a := by
    simp [hu]
  exact this ▸ List.mem_map_of_mem _ ha

/-- A state whose achievement table agrees with another keeps its
unlocked achievements. -/
lemma achUnlocked_of_eq {s t : State} {i : AchId}
    (he : t.achievements = s.achievements) (h : AchUnlocked s i) :
    AchUnlocked t i := by
  obtain ⟨a, ha, hid, hu⟩ := h
  exact ⟨a, he ▸ ha, hid, hu⟩

/-- `completeSession` never re-locks an unlocked achievement. -/
lemma completeSession_mono {s : State} {i : AchId} (h : AchUnlocked s i) :
    AchUnlocked (completeSession s) i := by
  unfold completeSession
  by_cases hm : (pauseTimer s).currentMode = Mode.work <;>
    simp only [hm, if_true, if_false, Bool.false_eq_true]
  · exact achUnlocked_of_eq (switchMode_achievements _ _)
      (checkAchievements_mono (achUnlocked_of_eq rfl h))
  · exact achUnlocked_of_eq (switchMode_achievements _ _)
      (checkAchievements_mono (achUnlocked_of_eq rfl h))

/-- No single public operation (other than load and import) re-locks an
unlocked achievement. -/
lemma applyOp_mono (op : Op) {s : State} {i : AchId} (h : AchUnlocked s i) :
    AchUnlocked (applyOp op s) i := by
  cases op with
  | start => exact achUnlocked_of_eq rfl h
  | tick =>
    unfold applyOp tick
    by_cases hr : s.isRunning
    · simp only [hr, if_true]
      by_cases ht : s.timeLeft - 1 ≤ 0
      · simp only [ht, if_true]
        exact completeSession_mono (achUnlocked_of_eq rfl h)
      · simp only [ht, if_false]
        exact achUnlocked_of_eq rfl h
    · simp only [hr, if_false, Bool.false_eq_true]
      exact h
  | pause => exact achUnlocked_of_eq rfl h
  | reset => exact achUnlocked_of_eq rfl h
  | switchMode m => exact achUnlocked_of_eq (switchMode_achievements _ _) h
  | completeSession => exact completeSession_mono h
  | finishSet n => exact achUnlocked_of_eq rfl h
  | addTask t =>
    unfold applyOp addTask
    by_cases he : jsTrim t = "" <;> simp only [he, if_true, if_false] <;>
      exact achUnlocked_of_eq rfl h
  | toggleTask j => exact achUnlocked_of_eq rfl h
  | deleteTask j => exact achUnlocked_of_eq rfl h
  | deleteHistory j => exact achUnlocked_of_eq rfl h

/-- Claim C5, amended.  Once an achievement is unlocked, no sequence of
session completions, ticks, timer operations, task edits, archiving,
deletions or achievement re-evaluations ever re-locks it.  The claim as
stated also covers data import and reload, and fails there: import and
load overwrite the unlocked flags wholesale with the blob's values (see
the counterexample). -/
theorem c5_amended_monotonic (ops : List Op) (s : State) (i : AchId)
    (h : AchUnlocked s i) : AchUnlocked (applyOps ops s) i := by
  induction ops generalizing s with
  | nil => exact h
  | cons op rest ih => exact ih (applyOp op s) (applyOp_mono op h)

/-- Witness for the amended C5: First Blood, unlocked by completing a
session, survives a subsequent pause-reset-archive sequence. -/
theorem c5_amended_witness :
    AchUnlocked (completeSession initState) AchId.firstBlood
    ∧ AchUnlocked
        (applyOps [Op.pause, Op.reset, Op.finishSet ""] (completeSession initState))
        AchId.firstBlood :=
  ⟨by decide, c5_amended_monotonic [Op.pause, Op.reset, Op.finishSet ""]
      (completeSession initState) AchId.firstBlood (by decide)⟩

/-- Counterexample to claim C5 as stated: importing a blob whose
achievements field marks First Blood as locked re-locks it, because
`importData` copies `savedAch.unlocked` into the table unconditionally. -/
theorem c5_counterexample_import_relocks :
    AchUnlocked (completeSession initState) AchId.firstBlood
    ∧ ¬ AchUnlocked
        (importData
          (ImportBlob.jobj
            { achievements :=
                some [{ id := AchId.firstBlood, unlocked := false, unlockedDate := none }] })
          true (completeSession initState)).state
        AchId.firstBlood := by
  constructor <;> decide

/-! ### C1: persistence round trip -/

/-- Reconciliation skips an entry whose id differs from the saved one. -/
lemma updateFirst_skip {a : Achievement} {sa : Achievement} (t : List Achievement)
    (h : ¬ a.id = sa.id) : updateFirst (a :: t) sa = a :: updateFirst t sa := by
  simp [updateFirst, h]

/-- A whole reconciliation pass skips an entry none of the saved ids
match. -/
lemma foldl_updateFirst_skip (a : Achievement) (saved : List Achievement)
    (h : ∀ sa ∈ saved, ¬ a.id = sa.id) (t : List Achievement) :
    saved.foldl updateFirst (a :: t) = a :: saved.foldl updateFirst t := by
  induction saved generalizing t with
  | nil => rfl
  | cons sa rest ih =>
    rw [List.foldl_cons, List.foldl_cons,
      updateFirst_skip t (h sa (List.mem_cons_self sa rest))]
    exact ih (fun x hx => h x (List.mem_cons_of_mem _ hx)) _

/-- Reconciling a saved achievement list into a table with the same ids in
the same order (and no duplicate ids) reproduces the saved list exactly:
each saved entry hits precisely its own slot. -/
lemma restoreAch_roundtrip (tbl : List Achievement) :
    ∀ tbl0 : List Achievement,
      tbl.map Achievement.id = tbl0.map Achievement.id →
      (tbl.map Achievement.id).Nodup →
      restoreAch tbl0 tbl = tbl := by
  induction tbl with
  | nil =>
    intro tbl0 h _
    cases tbl0 with
    | nil => rfl
    | cons b tl0 => simp at h
  | cons a tl ih =>
    intro tbl0 h hnd
    cases tbl0 with
    | nil => simp at h
    | cons b tl0 =>
      simp only [List.map_cons, List.cons.injEq] at h
      obtain ⟨h1, h2⟩ := h
      obtain ⟨hni, hnd2⟩ := List.nodup_cons.mp hnd
      show (a :: tl).foldl updateFirst (b :: tl0) = a :: tl
      rw [List.foldl_cons]
      have hq : updateFirst (b :: tl0) a = a :: tl0 := by
        unfold updateFirst
        rw [if_pos h1.symm, ← h1]
      rw [hq, foldl_updateFirst_skip a tl
        (fun sa hsa heq => hni (heq ▸ List.mem_map_of_mem Achievement.id hsa)) tl0]
      exact congrArg (a :: ·) (ih tl0 h2 hnd2)

/-- Counterexample to claim C1 as stated.  From the reachable state
obtained by starting the timer and letting one second tick, `timeLeft` is
1499; saving and reloading that state yields `timeLeft` 1500, because
`loadData` first restores `timeLeft` and then calls
`switchMode(this.currentMode)`, which resets `timeLeft` to the full mode
duration.  The round trip therefore does not restore `timeLeft`. -/
theorem c1_counterexample_timeLeft :
    (tick (startTimer initState)).timeLeft = 1499
    ∧ (loadData (saveData (tick (startTimer initState))) initState).timeLeft = 1500
    ∧ (loadData (saveData (tick (startTimer initState))) initState).timeLeft
        ≠ (tick (startTimer initState)).timeLeft := by
  refine ⟨?_, ?_, ?_⟩ <;> decide

/-- Claim C1, amended.  For every state whose achievement table carries
the standard ids in the standard order (true of every reachable state),
saving with `saveData` and reloading with `loadData` into a fresh app
restores `currentMode`, `completedSessions`, `tasks`, `history`,
`totalBreaks`, the theme flag and the achievement unlocked flags and
dates exactly - but `timeLeft` comes back as the full duration of the
restored mode rather than its saved value, because `loadData` ends by
calling `switchMode`. -/
theorem c1_amended_roundtrip (s : State)
    (h : s.achievements.map Achievement.id = initState.achievements.map Achievement.id) :
    (loadData (saveData s) initState).currentMode = s.currentMode
    ∧ (loadData (saveData s) initState).timeLeft = (modes s.currentMode).duration
    ∧ (loadData (saveData s) initState).completedSessions = s.completedSessions
    ∧ (loadData (saveData s) initState).tasks = s.tasks
    ∧ (loadData (saveData s) initState).history = s.history
    ∧ (loadData (saveData s) initState).totalBreaks = s.totalBreaks
    ∧ (loadData (saveData s) initState).isDark = s.isDark
    ∧ (loadData (saveData s) initState).achievements = s.achievements := by
  have hnd : (s.achievements.map Achievement.id).Nodup := by
    rw [h]
    decide
  refine ⟨rfl, rfl, rfl, rfl, rfl, rfl, rfl, ?_⟩
  show restoreAch initState.achievements s.achievements = s.achievements
  exact restoreAch_roundtrip s.achievements initState.achievements h hnd

/-- Witness for the amended C1 at the reachable state reached by one tick
of a started timer. -/
theorem c1_amended_witness :
    (tick (startTimer initState)).achievements.map Achievement.id
        = initState.achievements.map Achievement.id
    ∧ ((loadData (saveData (tick (startTimer initState))) initState).currentMode
          = (tick (startTimer initState)).currentMode
      ∧ (loadData (saveData (tick (startTimer initState))) initState).timeLeft
          = (modes (tick (startTimer initState)).currentMode).duration
      ∧ (loadData (saveData (tick (startTimer initState))) initState).completedSessions
          = (tick (startTimer initState)).completedSessions
      ∧ (loadData (saveData (tick (startTimer initState))) initState).tasks
          = (tick (startTimer initState)).tasks
      ∧ (loadData (saveData (tick (startTimer initState))) initState).history
          = (tick (startTimer initState)).history
      ∧ (loadData (saveData (tick (startTimer initState))) initState).totalBreaks
          = (tick (startTimer initState)).totalBreaks
      ∧ (loadData (saveData (tick (startTimer initState))) initState).isDark
          = (tick (startTimer initState)).isDark
      ∧ (loadData (saveData (tick (startTimer initState))) initState).achievements
          = (tick (startTimer initState)).achievements) :=
  ⟨by decide, c1_amended_roundtrip (tick (startTimer initState)) (by decide)⟩

/-! ### C10: the timeLeft range invariant -/

/-- `applyImport` on a paused state ends with `switchMode` applied, so it
leaves `timeLeft` at the full duration of the imported mode. -/
lemma applyImport_not_running (o : ImportedData) (s : State)
    (h : s.isRunning = false) :
    (applyImport o s).timeLeft = (modes (applyImport o s).currentMode).duration := by
  unfold applyImport switchMode
  simp [h]

/-- `loadData` on a paused state ends with `switchMode` applied, so it
leaves `timeLeft` at the full duration of the loaded mode. -/
lemma loadData_not_running (d : AppData) (s : State) (h : s.isRunning = false) :
    (loadData d s).timeLeft = (modes (loadData d s).currentMode).duration := by
  unfold loadData switchMode
  simp [h]

/-- Adding a task preserves the timer fields. -/
lemma addTask_frame (t : String) (s : State) :
    (addTask t s).timeLeft = s.timeLeft
    ∧ (addTask t s).currentMode = s.currentMode := by
  unfold addTask
  by_cases h : jsTrim t = "" <;> simp [h]

/-- `completeSessionPending` touches neither `timeLeft` nor
`currentMode`: the mode change is the deferred switch, not part of the
completion step itself. -/
lemma completeSessionPending_frame (s : State) :
    (completeSessionPending s).1.timeLeft = s.timeLeft
    ∧ (completeSessionPending s).1.currentMode = s.currentMode := by
  unfold completeSessionPending checkAchievements pauseTimer
  by_cases h : s.currentMode = Mode.work <;> simp [h]

/-- Consistency of the two completion renderings: performing the deferred
switch returned by `completeSessionPending` right away gives the fused
`completeSession`. -/
lemma completeSession_eq_fused (s : State) :
    switchMode (completeSessionPending s).2 (completeSessionPending s).1 = completeSession s := by
  unfold completeSessionPending completeSession checkAchievements pauseTimer
  by_cases h : s.currentMode = Mode.work <;> simp [h]

/-- `switchMode` preserves the upper bound on `timeLeft`. -/
lemma switchMode_ub (m : Mode) (s : State)
    (ih : s.timeLeft ≤ (modes s.currentMode).duration) :
    (switchMode m s).timeLeft ≤ (modes (switchMode m s).currentMode).duration := by
  unfold switchMode
  by_cases h : s.isRunning
  · simp only [h, if_true]
    exact ih
  · simp only [h, if_false, Bool.false_eq_true]
    exact le_refl _

/-- One timed tick preserves the upper bound on `timeLeft`. -/
lemma tickT_ub (ts : TState)
    (ih : ts.st.timeLeft ≤ (modes ts.st.currentMode).duration) :
    (tickT ts).st.timeLeft ≤ (modes (tickT ts).st.currentMode).duration := by
  unfold tickT
  by_cases hr : ts.st.isRunning
  · simp only [hr, if_true]
    by_cases hc : ts.st.timeLeft - 1 ≤ 0
    · simp only [hc, if_true]
      obtain ⟨h1, h2⟩ :=
        completeSessionPending_frame { ts.st with timeLeft := ts.st.timeLeft - 1 }
      show (completeSessionPending { ts.st with timeLeft := ts.st.timeLeft - 1 }).1.timeLeft
        ≤ (modes (completeSessionPending
            { ts.st with timeLeft := ts.st.timeLeft - 1 }).1.currentMode).duration
      rw [h1, h2]
      show ts.st.timeLeft - 1 ≤ (modes ts.st.currentMode).duration
      omega
    · simp only [hc, if_false]
      show ts.st.timeLeft - 1 ≤ (modes ts.st.currentMode).duration
      omega
  · simp only [hr, if_false, Bool.false_eq_true]
    exact ih

/-- A deferred-switch firing preserves the upper bound on `timeLeft`. -/
lemma fireT_ub (ts : TState)
    (ih : ts.st.timeLeft ≤ (modes ts.st.currentMode).duration) :
    (fireT ts).st.timeLeft ≤ (modes (fireT ts).st.currentMode).duration := by
  unfold fireT
  cases hp : ts.pending with
  | none => exact ih
  | some m => exact switchMode_ub m ts.st ih

set_option maxRecDepth 4000 in
/-- Counterexample to claim C10 as stated, refuting both bounds of the
claimed range.  Lower bound: the deferred-switch race (run a short break
to completion, press start during the 1-second delay window so that the
stale deferred switch at lines 715/717 hits the guard at line 607 and
no-ops, then let the restarted interval tick) drives `timeLeft` to -1 -
a sequence of public operations with no import involved, so even
restricting imports cannot rescue the lower bound.  Upper bound:
importing a blob carrying `timeLeft` 2000 while the timer runs installs
it unchecked in work mode (duration 1500). -/
theorem c10_counterexample_range_violations :
    ReachableT raceTrace
    ∧ ReachableTSafe raceTrace
    ∧ raceTrace.st.timeLeft = -1
    ∧ ¬ (0 ≤ raceTrace.st.timeLeft)
    ∧ ReachableT overflowImport
    ∧ ¬ (overflowImport.st.timeLeft ≤ (modes overflowImport.st.currentMode).duration) := by
  have hiter : ∀ (k : Nat) (ts : TState), ts.st.isRunning = true →
      (k : Int) < ts.st.timeLeft →
      tickT^[k] ts = { ts with st := { ts.st with timeLeft := ts.st.timeLeft - k } } := by
    intro k
    induction k with
    | zero =>
      intro ts h1 h2
      simp only [Function.iterate_zero_apply, Nat.cast_zero, sub_zero]
    | succ k ih =>
      intro ts h1 h2
      have hne : ¬ (ts.st.timeLeft - 1 ≤ 0) := by
        push_cast at h2
        omega
      have ht : tickT ts = { ts with st := { ts.st with timeLeft := ts.st.timeLeft - 1 } } := by
        simp only [tickT, h1, if_true]
        rw [if_neg hne]
      have h1b : ({ ts with st := { ts.st with timeLeft := ts.st.timeLeft - 1 } }
          : TState).st.isRunning = true := h1
      have hk2 : (k : Int) < ({ ts with st := { ts.st with timeLeft := ts.st.timeLeft - 1 } }
          : TState).st.timeLeft := by
        show (k : Int) < ts.st.timeLeft - 1
        push_cast at h2
        omega
      rw [Function.iterate_succ_apply, ht, ih _ h1b hk2]
      show ({ st := { ts.st with timeLeft := ts.st.timeLeft - 1 - (k : Int) },
              pending := ts.pending } : TState)
        = { st := { ts.st with timeLeft := ts.st.timeLeft - ((k + 1 : Nat) : Int) },
            pending := ts.pending }
      have harith : ts.st.timeLeft - 1 - (k : Int)
          = ts.st.timeLeft - ((k + 1 : Nat) : Int) := by
        push_cast
        ring
      rw [harith]
  have h299 : tickT^[299]
        (applyOpT OpT.start (applyOpT (OpT.switchMode Mode.shortBreak) initTState))
      = { st := { currentMode := Mode.shortBreak, timeLeft := 1, isRunning := true,
                  completedSessions := 0, tasks := [], history := [],
                  achievements := initAchievements, totalBreaks := 0, isDark := false,
                  hour := 12, now := "", nextId := 0 },
          pending := none } := by
    rw [hiter 299
      (applyOpT OpT.start (applyOpT (OpT.switchMode Mode.shortBreak) initTState))
      rfl (by decide)]
    decide
  have h300 : tickT^[300]
        (applyOpT OpT.start (applyOpT (OpT.switchMode Mode.shortBreak) initTState))
      = tickT (tickT^[299]
          (applyOpT OpT.start (applyOpT (OpT.switchMode Mode.shortBreak) initTState))) :=
    Function.iterate_succ_apply' tickT 299 _
  have hrace : raceTrace.st.timeLeft = -1 := by
    show (applyOpT OpT.tick (applyOpT OpT.fire (applyOpT OpT.start (tickT^[300]
      (applyOpT OpT.start
        (applyOpT (OpT.switchMode Mode.shortBreak) initTState)))))).st.timeLeft = -1
    rw [h300, h299]
    decide
  have hsteps : ∀ (k : Nat) (ts : TState), ReachableTSafe ts → ReachableTSafe (tickT^[k] ts) := by
    intro k
    induction k with
    | zero =>
      intro ts h
      exact h
    | succ k ih =>
      intro ts h
      rw [Function.iterate_succ_apply]
      exact ih _ (ReachableTSafe.step OpT.tick h)
  have hstepsT : ∀ (k : Nat) (ts : TState), ReachableT ts → ReachableT (tickT^[k] ts) := by
    intro k
    induction k with
    | zero =>
      intro ts h
      exact h
    | succ k ih =>
      intro ts h
      rw [Function.iterate_succ_apply]
      exact ih _ (ReachableT.step OpT.tick h)
  refine ⟨?_, ?_, hrace, ?_, ?_, ?_⟩
  · exact ReachableT.step OpT.tick (ReachableT.step OpT.fire (ReachableT.step OpT.start
      (hstepsT 300 _ (ReachableT.step OpT.start
        (ReachableT.step (OpT.switchMode Mode.shortBreak) ReachableT.init)))))
  · exact ReachableTSafe.step OpT.tick (ReachableTSafe.step OpT.fire
      (ReachableTSafe.step OpT.start (hsteps 300 _ (ReachableTSafe.step OpT.start
        (ReachableTSafe.step (OpT.switchMode Mode.shortBreak) ReachableTSafe.init)))))
  · rw [hrace]
    decide
  · exact ReachableT.importStep _ _ (ReachableT.step OpT.start ReachableT.init)
  · decide

/-- Claim C10, amended.  In every timed state reachable by the public
operations - the deferred switch firing included - with loads happening
while paused (as they do, only in the constructor) and imports performed
while paused as well, `timeLeft` never exceeds the current mode's
duration.  This upper bound is all that survives of the claimed range:
the lower bound 0 fails even in this restricted fragment (the
deferred-switch race of the counterexample drives `timeLeft` to -1, and
each repetition drives it lower), and with imports allowed while running
the upper bound fails too. -/
theorem c10_amended_upper_bound (ts : TState) (h : ReachableTSafe ts) :
    ts.st.timeLeft ≤ (modes ts.st.currentMode).duration := by
  induction h with
  | init => decide
  | step op hr ih =>
    rename_i ts0
    cases op with
    | start => exact ih
    | tick => exact tickT_ub ts0 ih
    | fire => exact fireT_ub ts0 ih
    | pause => exact ih
    | reset => exact le_refl _
    | switchMode m => exact switchMode_ub m ts0.st ih
    | finishSet n => exact ih
    | addTask t =>
      obtain ⟨h1, h2⟩ := addTask_frame t ts0.st
      show (addTask t ts0.st).timeLeft ≤ (modes (addTask t ts0.st).currentMode).duration
      rw [h1, h2]
      exact ih
    | toggleTask i => exact ih
    | deleteTask i => exact ih
    | deleteHistory i => exact ih
  | load d hr hrun ih =>
    rename_i ts0
    exact le_of_eq (loadData_not_running d ts0.st hrun)
  | importStep b c hr hrun ih =>
    rename_i ts0
    cases b with
    | malformed => exact ih
    | jnull => exact ih
    | jbool v => exact ih
    | jnum v => exact ih
    | jstr v => exact ih
    | jarr =>
      show (importData ImportBlob.jarr c ts0.st).state.timeLeft
        ≤ (modes (importData ImportBlob.jarr c ts0.st).state.currentMode).duration
      unfold importData
      by_cases hc : c = true
      · subst hc
        simp only [if_true]
        exact le_of_eq (applyImport_not_running {} ts0.st hrun)
      · simp only [Bool.not_eq_true] at hc
        subst hc
        simpa using ih
    | jobj o =>
      show (importData (ImportBlob.jobj o) c ts0.st).state.timeLeft
        ≤ (modes (importData (ImportBlob.jobj o) c ts0.st).state.currentMode).duration
      unfold importData
      by_cases hc : c = true
      · subst hc
        simp only [if_true]
        exact le_of_eq (applyImport_not_running o ts0.st hrun)
      · simp only [Bool.not_eq_true] at hc
        subst hc
        simpa using ih

/-- Witness for the amended C10 at the initial timed state. -/
theorem c10_amended_upper_bound_witness :
    initTState.st.timeLeft ≤ (modes initTState.st.currentMode).duration :=
  c10_amended_upper_bound initTState ReachableTSafe.init

end FocusPop
